import Mathlib

/-!
Verification of the DDEE trading-engine sources.

This file gives a shallow embedding, in Lean 4, of the decision logic of the
trading engine found in `bot_engine.py` and `handlers/strategy_handler.py` /
`handlers/screener_handler.py`: the daily risk gate, the per-LTF-epoch trade
dedup, the intelligence-strategy entry decision, the duplicate/opposite
position check in trade execution, the TP/SL target-price derivation, the
open-contract monitor step, the screener scorecard signal computation with
its echo-forecast veto, the adaptive threshold for strategy 5, the tick-fed
in-progress candle updates and the terminal contract-update bookkeeping.

Prices, balances and indicator values are modelled as rationals; Python
`None`-or-absent dictionary entries are modelled as `Option`.  Where the
repository keeps two near-duplicate variants of a routine (one inside
`TradingBotEngine`, one in the `handlers` package), the handlers variant is
embedded, following the repository design notes that designate it as the
authoritative one; divergences of the in-engine duplicate are noted at the
relevant theorems.
-/

namespace DDEE

/-- Trade signal emitted by a strategy, the `'buy'` / `'sell'` strings of the
source. -/
inductive BuySell
  | buy
  | sell
deriving DecidableEq, Repr

/-- Internal side of an open contract (`'long'` / `'short'`). -/
inductive Side
  | long
  | short
deriving DecidableEq, Repr

/-- Mapping `internal_side = 'long' if side == 'buy' else 'short'` from
`_execute_trade`. -/
def BuySell.toSide : BuySell → Side
  | .buy => .long
  | .sell => .short

/-- Screener trade direction (`'CALL'` / `'PUT'`). -/
inductive TradeDir
  | CALL
  | PUT
deriving DecidableEq, Repr

/-- Mapping `'buy' if direction == 'CALL' else 'sell'` used by the
intelligence strategies. -/
def TradeDir.toBuySell : TradeDir → BuySell
  | .CALL => .buy
  | .PUT => .sell

/-- Screener scorecard signal (`'BUY'` / `'SELL'` / `'WAIT'`). -/
inductive TradeSignal
  | BUY
  | SELL
  | WAIT
deriving DecidableEq, Repr

/-- Candlestick pattern labels returned by `check_price_action_patterns`. -/
inductive PatternLabel
  | bullish_pin
  | bearish_pin
  | bullish_engulfing
  | bearish_engulfing
  | bullish_harami
  | bearish_harami
  | tweezer_top
  | tweezer_bottom
  | doji
  | marubozu
deriving DecidableEq, Repr

/-- An OHLC candle; `o`, `hi`, `lo`, `cl` are the `'open'`, `'high'`,
`'low'`, `'close'` dictionary fields of the source, `epoch` the candle start
in epoch seconds. -/
structure Candle where
  epoch : ℕ
  o : ℚ
  hi : ℚ
  lo : ℚ
  cl : ℚ
deriving DecidableEq, Repr

/-- Candle well-formedness: the body lies inside the wick range. -/
def Candle.wf (cd : Candle) : Prop :=
  cd.lo ≤ min cd.o cd.cl ∧ max cd.o cd.cl ≤ cd.hi

/- ### Tick-fed candle assembly (`TradingBotEngine._handle_tick`) -/

/-- A fresh in-progress bucket started by a tick at wall time `t` for
granularity `g`: `open = high = low = close = price` and
`epoch = int((t // g) * g)` (lines 521-524 and 532-535 of
`bot_engine.py`). -/
def newBucket (g t : ℕ) (price : ℚ) : Candle :=
  { epoch := t / g * g, o := price, hi := price, lo := price, cl := price }

/-- The in-bucket update of an in-progress candle by a tick:
`close = price`, `high = max(high, price)`, `low = min(low, price)`
(lines 527-529 and 558-560 of `bot_engine.py`). -/
def updateBucket (cd : Candle) (price : ℚ) : Candle :=
  { cd with cl := price, hi := max cd.hi price, lo := min cd.lo price }

/-- One HTF step of `_handle_tick` (lines 511-535): given the current
in-progress HTF candle (if any), either close it and start a new bucket, or
update it in place.  Returns the closed candle (if one closed) and the new
in-progress candle. -/
def htfTickStep (g t : ℕ) (price : ℚ) (cur : Option Candle) :
    Option Candle × Candle :=
  match cur with
  | some cd =>
      if cd.epoch + g ≤ t then (some cd, newBucket g t price)
      else (none, updateBucket cd price)
  | none => (none, newBucket g t price)

/-- The minute-of-hour of an epoch timestamp, `tick_time.minute`. -/
def minuteOf (t : ℕ) : ℕ := t % 3600 / 60

/-- Epoch of a fresh LTF bucket as computed on lines 552-554 of
`bot_engine.py`: the minute is floored to a multiple of `ltf_min` and the
seconds are zeroed, keeping the hour
(`tick_time.replace(minute=(minute // ltf_min) * ltf_min, second=0)`). -/
def ltfNewEpoch (ltf_min t : ℕ) : ℕ :=
  t / 3600 * 3600 + minuteOf t / ltf_min * ltf_min * 60

/-- One LTF step of `_handle_tick` (lines 537-560) on an existing in-progress
LTF candle (`ltf_min` minutes, i.e. granularity `ltf_min * 60` seconds). -/
def ltfTickStep (ltf_min t : ℕ) (price : ℚ) (cd : Candle) :
    Option Candle × Candle :=
  if cd.epoch + ltf_min * 60 ≤ t then
    (some cd,
     { epoch := ltfNewEpoch ltf_min t, o := price, hi := price, lo := price,
       cl := price })
  else (none, updateBucket cd price)

/- ### Daily risk gate and trade dedup
(`StrategyHandler.process_strategy`, whose risk gate extends the in-engine
`TradingBotEngine._process_strategy`, and whose dedup tail, lines 65-73,
is verbatim the tail of `_process_strategy`, lines 1807-1816). -/

/-- The configuration entries read by the risk gate. -/
structure GateConfig where
  max_daily_loss_pct : ℚ
  max_daily_profit_pct : ℚ
deriving DecidableEq, Repr

/-- Engine-level state consulted by the risk gate: the daily starting
balance, the account balance, the floating pnl of each open contract and the
running flag. -/
structure EngineGateState where
  daily_start_balance : ℚ
  account_balance : ℚ
  open_pnls : List ℚ
  is_running : Bool
deriving DecidableEq, Repr

/-- Current equity: `account_balance + sum(c['pnl'] for c in contracts)`. -/
def currentEquity (st : EngineGateState) : ℚ :=
  st.account_balance + st.open_pnls.sum

/-- Daily pnl percentage:
`(current_equity - daily_start_balance) / daily_start_balance * 100`. -/
def dailyPnlPct (st : EngineGateState) : ℚ :=
  (currentEquity st - st.daily_start_balance) / st.daily_start_balance * 100

/-- Per-symbol dedup state: `sd['last_trade_ltf']` and
`sd['last_processed_ltf']` (epoch keys; `none` when unset). -/
structure SymbolDedup where
  last_trade_ltf : Option ℕ
  last_processed_ltf : Option ℕ
deriving DecidableEq, Repr

/-- Result of one strategy evaluation: updated engine state, updated dedup
state, and the trade executed (if any). -/
structure StepResult where
  engine : EngineGateState
  sd : SymbolDedup
  intent : Option BuySell
deriving DecidableEq, Repr

/-- The body of `process_strategy` after the risk gate (lines 38-73 of
`strategy_handler.py`): bail out when `htf_open`, the current LTF candle or
the last tick is missing, skip an already-processed candle close, then run
the per-strategy signal logic and the dedup tail.  The per-strategy signal
computation (which never touches the running flag, `last_trade_ltf` or
`last_processed_ltf`) is abstracted as the input `signal`; the theorems below
quantify over it. -/
def processStrategyBody (st : EngineGateState) (sd : SymbolDedup)
    (htf_open : Option ℚ) (current_ltf : Option Candle)
    (last_tick : Option ℚ) (is_candle_close : Bool)
    (signal : Option BuySell) : StepResult :=
  match htf_open, current_ltf, last_tick with
  | some _, some ltf, some _ =>
      let time_key := ltf.epoch
      if sd.last_processed_ltf = some time_key ∧ is_candle_close then
        ⟨st, sd, none⟩
      else
        match signal with
        | some s =>
            if sd.last_trade_ltf = some time_key then ⟨st, sd, none⟩
            else
              ⟨st,
               { last_trade_ltf := some time_key,
                 last_processed_ltf :=
                   if is_candle_close then some time_key
                   else sd.last_processed_ltf },
               some s⟩
        | none => ⟨st, sd, none⟩
  | _, _, _ => ⟨st, sd, none⟩

/-- The strategy evaluator `StrategyHandler.process_strategy` (lines 16-73):
when `daily_start_balance > 0`, the daily pnl percentage is checked against
the loss and profit caps; reaching either cap clears the running flag and
returns before any signal logic runs. -/
def processStrategy (cfg : GateConfig) (st : EngineGateState)
    (sd : SymbolDedup) (htf_open : Option ℚ) (current_ltf : Option Candle)
    (last_tick : Option ℚ) (is_candle_close : Bool)
    (signal : Option BuySell) : StepResult :=
  if 0 < st.daily_start_balance then
    if dailyPnlPct st ≤ -cfg.max_daily_loss_pct then
      ⟨{ st with is_running := false }, sd, none⟩
    else if cfg.max_daily_profit_pct ≤ dailyPnlPct st then
      ⟨{ st with is_running := false }, sd, none⟩
    else
      processStrategyBody st sd htf_open current_ltf last_tick
        is_candle_close signal
  else
    processStrategyBody st sd htf_open current_ltf last_tick
      is_candle_close signal

/-- One evaluation arriving within a fixed LTF epoch: the engine state, the
varying OHLC of the in-progress candle, the tick price, the candle-close
flag and the per-strategy signal of that evaluation. -/
structure MainEvalInput where
  st : EngineGateState
  htf_open : ℚ
  o : ℚ
  hi : ℚ
  lo : ℚ
  cl : ℚ
  last_tick : ℚ
  is_candle_close : Bool
  signal : Option BuySell
deriving Repr

/-- One evaluator call at LTF epoch `epoch`. -/
def stepAt (cfg : GateConfig) (epoch : ℕ) (e : MainEvalInput)
    (sd : SymbolDedup) : StepResult :=
  processStrategy cfg e.st sd (some e.htf_open)
    (some ⟨epoch, e.o, e.hi, e.lo, e.cl⟩) (some e.last_tick)
    e.is_candle_close e.signal

/-- Number of trades executed by a sequence of evaluator calls all falling in
the same LTF epoch, threading the per-symbol dedup state. -/
def countTrades (cfg : GateConfig) (epoch : ℕ) :
    List MainEvalInput → SymbolDedup → ℕ
  | [], _ => 0
  | e :: rest, sd =>
      let r := stepAt cfg epoch e sd
      (if r.intent.isSome then 1 else 0) + countTrades cfg epoch rest r.sd

/-- The dedup tail of the in-engine `_process_strategy_7` (lines 1282-1293
of `bot_engine.py`): the key is the wall-clock minute `int(now // 60)`; a
signal executes only when `last_trade_ltf` differs from it. -/
def strat7TailStep (last : Option ℕ) (now : ℕ) (signal : Option BuySell) :
    Option ℕ × Option BuySell :=
  match signal with
  | none => (last, none)
  | some s =>
      if last ≠ some (now / 60) then (some (now / 60), some s)
      else (last, none)

/-- Number of trades executed by a sequence of strategy-7 evaluations, each
given as a wall-clock second and the signal it derived. -/
def countTrades7 : List (ℕ × Option BuySell) → Option ℕ → ℕ
  | [], _ => 0
  | (now, sig) :: rest, last =>
      let r := strat7TailStep last now sig
      (if r.2.isSome then 1 else 0) + countTrades7 rest r.1

/- ### Intelligence strategy entry decision
(`StrategyHandler._process_intelligence_strategy`, lines 160-229, and
`StrategyHandler._process_strategy_7`, lines 128-158). -/

/-- The screener scorecard entry as read by the intelligence strategies.
The fields `signal`, `correlation`, `rr` and `last_update` are carried so
that theorems can speak about them; `_process_intelligence_strategy` never
reads them. -/
structure ScreenerMetrics where
  confidence : ℚ
  direction : TradeDir
  threshold : Option ℚ
  srsi_k : Option ℚ
  signal : TradeSignal
  correlation : Option ℚ
  rr : ℚ
  last_update : ℚ
deriving DecidableEq, Repr

/-- Indicator values and cached market state consumed by
`_process_intelligence_strategy`; each field is the value of the
corresponding pandas/ta computation in the source. -/
structure IntelInputs where
  m15_nonempty : Bool
  ema50_15 : ℚ
  st_15 : ℚ
  price_15 : ℚ
  bb_h_15 : ℚ
  bb_l_15 : ℚ
  m5_last : Option Candle
  ltf_last : Option Candle
  current_ltf_close : Option ℚ
  last_tick : ℚ
  fractal_highs : List ℚ
  fractal_lows : List ℚ
  snr_prices : List ℚ
  pattern : Option PatternLabel
deriving Repr

/-- Last `n` elements of a list, the Python `[-n:]` slice. -/
def lastN (n : ℕ) (l : List ℚ) : List ℚ := l.drop (l.length - n)

/-- Effective threshold used by the intelligence strategies:
`metrics.get('threshold', 72 if not is_multiplier else 68)`, overridden to
`60` for strategy 6. -/
def intelThreshold (strat6 is_multiplier : Bool) (m : ScreenerMetrics) : ℚ :=
  if strat6 then 60 else m.threshold.getD (if is_multiplier then 68 else 72)

/-- The entry decision of `_process_intelligence_strategy` (strategies 5 and
6), lines 160-229 of `strategy_handler.py`. -/
def processIntelligence (strat6 is_multiplier : Bool)
    (metrics : Option ScreenerMetrics) (ind : IntelInputs) :
    Option BuySell :=
  match metrics with
  | none => none
  | some m =>
      if |m.confidence| < intelThreshold strat6 is_multiplier m then none
      else
        let direction := m.direction
        if is_multiplier then
          if strat6 then some direction.toBuySell
          else if ind.m15_nonempty then
            if |ind.price_15 - ind.ema50_15| / ind.ema50_15 < 1 / 200 ∨
               |ind.price_15 - ind.st_15| / ind.st_15 < 1 / 200 then
              match ind.m5_last with
              | some m5 =>
                  if (direction = .CALL ∧ m5.o < m5.cl) ∨
                     (direction = .PUT ∧ m5.cl < m5.o) then
                    match ind.ltf_last with
                    | some ltf =>
                        if (direction = .CALL ∧ ltf.o < ltf.cl) ∨
                           (direction = .PUT ∧ ltf.cl < ltf.o) then
                          some direction.toBuySell
                        else none
                    | none => none
                  else none
              | none => none
            else none
          else none
        else
          if strat6 then some direction.toBuySell
          else
            let price_5m := ind.current_ltf_close.getD ind.last_tick
            let fractal_touch :=
              if direction = .PUT then
                (lastN 3 ind.fractal_highs).any
                  (fun fh => decide (|price_5m - fh| / fh < 1 / 500))
              else
                (lastN 3 ind.fractal_lows).any
                  (fun fl => decide (|price_5m - fl| / fl < 1 / 500))
            let at_structure :=
              if fractal_touch then true
              else if ind.m15_nonempty then
                decide ((direction = .PUT ∧ ind.bb_h_15 ≤ ind.price_15) ∨
                        (direction = .CALL ∧ ind.price_15 ≤ ind.bb_l_15)) ||
                ind.snr_prices.any
                  (fun z => decide (|ind.price_15 - z| / z < 1 / 500))
              else false
            if at_structure then
              let srsi_k := m.srsi_k.getD (1 / 2)
              let stoch_extreme :=
                (direction = .CALL ∧ srsi_k ≤ 1 / 5) ∨
                (direction = .PUT ∧ 4 / 5 ≤ srsi_k)
              if fractal_touch ∧ ¬stoch_extreme then none
              else
                match ind.ltf_last, ind.pattern with
                | some _, some p =>
                    if direction = .CALL ∧
                       (p = .bullish_pin ∨ p = .bullish_engulfing ∨
                        p = .tweezer_bottom) then some .buy
                    else if direction = .PUT ∧
                       (p = .bearish_pin ∨ p = .bearish_engulfing ∨
                        p = .tweezer_top) then some .sell
                    else none
                | _, _ => none
            else none

/-- TradingView-style recommendation strings consumed by strategy 7. -/
inductive TaRec
  | STRONG_BUY
  | BUY
  | NEUTRAL
  | SELL
  | STRONG_SELL
deriving DecidableEq, Repr

/-- The Python substring test `"BUY" in rec`. -/
def hasBUY : TaRec → Bool
  | .STRONG_BUY => true
  | .BUY => true
  | _ => false

/-- The Python substring test `"SELL" in rec`. -/
def hasSELL : TaRec → Bool
  | .STRONG_SELL => true
  | .SELL => true
  | _ => false

/-- The test `prev_small is None or "BUY" not in prev_small`. -/
def notBUYopt : Option TaRec → Bool
  | none => true
  | some r => !hasBUY r

/-- The test `prev_small is None or "SELL" not in prev_small`. -/
def notSELLopt : Option TaRec → Bool
  | none => true
  | some r => !hasSELL r

/-- The cached strategy-7 analysis (`bot.strat7_cache[symbol]`): its
timestamp and the three per-timeframe analyses, `none` when a timeframe is
disabled. -/
structure Strat7Cache where
  timestamp : ℚ
  small : Option TaRec
  mid : Option TaRec
  high : Option TaRec
deriving DecidableEq, Repr

/-- The entry decision of `StrategyHandler._process_strategy_7` (lines
128-158): bail out without a cache, on the over-ADR guard, or when the cache
is older than 65 seconds; otherwise require aligned recommendations, with a
small-TF flip debounce unless the small timeframe is configured OFF.
Returns the signal and the updated `last_strat7_small_rec`. -/
def processStrat7 (small_off : Bool) (cache : Option Strat7Cache)
    (over_adr : Bool) (now : ℚ) (prev_small : Option TaRec) :
    Option BuySell × Option TaRec :=
  match cache with
  | none => (none, prev_small)
  | some cc =>
      if over_adr then (none, prev_small)
      else if 65 < now - cc.timestamp then (none, prev_small)
      else
        let rec_small := cc.small.getD .NEUTRAL
        let rec_mid := cc.mid.getD .NEUTRAL
        let rec_high := cc.high.getD .NEUTRAL
        if small_off then
          (if hasBUY rec_high ∧ hasBUY rec_mid then some .buy
           else if hasSELL rec_high ∧ hasSELL rec_mid then some .sell
           else none,
           some rec_small)
        else
          if hasBUY rec_high ∧ hasBUY rec_mid then
            (if hasBUY rec_small ∧ notBUYopt prev_small then some .buy
             else none,
             some rec_small)
          else if hasSELL rec_high ∧ hasSELL rec_mid then
            (if hasSELL rec_small ∧ notSELLopt prev_small then some .sell
             else none,
             some rec_small)
          else (none, some rec_small)

/- ### Execution position check (`TradingBotEngine._execute_trade`,
lines 2094-2107). -/

/-- An open contract as inspected by the position check: its symbol (an
abstract identifier) and side. -/
structure OpenContractRec where
  symbol : ℕ
  side : Side
deriving DecidableEq, Repr

/-- Outcome of the position-management scan. -/
inductive ExecAction
  | drop
  | closeThenOpen (cid : ℕ)
  | openOnly
deriving DecidableEq, Repr

/-- The position-management loop of `_execute_trade`: iterate the contracts
in insertion order; on the first contract of the same symbol, return (drop
the intent) when its side matches, otherwise remember it and break; a
remembered opposite contract is sold and the buy proceeds. -/
def positionCheck : List (ℕ × OpenContractRec) → ℕ → Side → ExecAction
  | [], _, _ => .openOnly
  | (cid, c) :: rest, symbol, s =>
      if c.symbol = symbol then
        if c.side = s then .drop else .closeThenOpen cid
      else positionCheck rest symbol s

/-- The first open contract listed for a symbol, in insertion order. -/
def firstFor (cs : List (ℕ × OpenContractRec)) (symbol : ℕ) :
    Option (ℕ × OpenContractRec) :=
  cs.find? (fun pr => decide (pr.2.symbol = symbol))

/- ### TP/SL target prices (`TradingBotEngine._calculate_target_prices`,
lines 2320-2376). -/

/-- Fail-safe binary (CALL/PUT) target prices: a one-percent move from the
entry in each direction (lines 2371-2376). -/
def binaryTargets (side : Side) (entry tp_val sl_val : ℚ) :
    Option ℚ × Option ℚ :=
  if side = .long then
    ((if 0 < tp_val then some (entry * (101 / 100)) else none),
     (if 0 < sl_val then some (entry * (99 / 100)) else none))
  else
    ((if 0 < tp_val then some (entry * (99 / 100)) else none),
     (if 0 < sl_val then some (entry * (101 / 100)) else none))

/-- The target-price computation `_calculate_target_prices`: `entry` is the
contract's entry price, `strat5_pips` is `some (tp_pips, sl_pips)` exactly
when the active strategy is strategy 5 and a screener entry exists for the
symbol; `multiplier` is the contract's multiplier field (`none` or zero are
falsy, selecting the binary branch).  Returns the `tp_price` and `sl_price`
set on the contract. -/
def calculateTargetPrices (entry tp_val sl_val : ℚ) (use_fixed : Bool)
    (stake : ℚ) (multiplier : Option ℚ) (side : Side)
    (strat5_pips : Option (ℚ × ℚ)) : Option ℚ × Option ℚ :=
  if entry = 0 then (none, none)
  else if ¬(0 < tp_val ∨ 0 < sl_val) then (none, none)
  else
    let tp_usd := if use_fixed then tp_val else stake * tp_val / 100
    let sl_usd := if use_fixed then sl_val else stake * sl_val / 100
    match multiplier with
    | some mult =>
        if mult = 0 then binaryTargets side entry tp_val sl_val
        else
          match strat5_pips with
          | some pips =>
              if side = .long then
                (some (entry + pips.1), some (entry - pips.2))
              else (some (entry - pips.1), some (entry + pips.2))
          | none =>
              let denom := mult * stake
              if denom = 0 then (none, none)
              else if side = .long then
                ((if 0 < tp_val then some (entry * (1 + tp_usd / denom))
                  else none),
                 (if 0 < sl_val then some (entry * (1 - sl_usd / denom))
                  else none))
              else
                ((if 0 < tp_val then some (entry * (1 - tp_usd / denom))
                  else none),
                 (if 0 < sl_val then some (entry * (1 + sl_usd / denom))
                  else none))
    | none => binaryTargets side entry tp_val sl_val

/- ### Open-contract monitor (`TradingBotEngine._monitor_open_contracts`,
lines 1818-1977). -/

/-- The configuration entries read by the monitor. -/
structure MonParams where
  tp_enabled : Bool
  sl_enabled : Bool
  force_close_enabled : Bool
  use_fixed : Bool
  force_close_duration : ℤ
  tp_val : ℚ
  sl_val : ℚ
deriving DecidableEq, Repr

/-- An open contract as the monitor sees it. -/
structure MonContract where
  side : Side
  tp_price : Option ℚ
  sl_price : Option ℚ
  expiry_time : Option ℤ
  purchase_time : Option ℤ
  is_closing : Bool
  last_close_attempt : Option ℤ
  pnl : ℚ
  stake : ℚ
deriving DecidableEq, Repr

/-- Effect of `_close_contract` (lines 2197-2201, socket connected): a sell
request goes out and `last_close_attempt` is stamped with the current
time. -/
def closeAttempt (now : ℤ) (c : MonContract) : MonContract :=
  { c with last_close_attempt := some now }

/-- The price-based TP/SL fail-safe condition (lines 1908-1930): with a tick
price available and TP or SL enabled, a long closes when the price reaches
`tp_price` from below or `sl_price` from above, a short symmetrically. -/
def priceTrigger (p : MonParams) (price : Option ℚ) (c : MonContract) :
    Bool :=
  match price with
  | none => false
  | some pr =>
      (p.tp_enabled || p.sl_enabled) &&
      (if c.side = Side.long then
        (p.tp_enabled &&
          (match c.tp_price with
           | some tp => decide (tp ≤ pr)
           | none => false)) ||
        (p.sl_enabled &&
          (match c.sl_price with
           | some sl => decide (pr ≤ sl)
           | none => false))
      else
        (p.tp_enabled &&
          (match c.tp_price with
           | some tp => decide (pr ≤ tp)
           | none => false)) ||
        (p.sl_enabled &&
          (match c.sl_price with
           | some sl => decide (sl ≤ pr)
           | none => false)))

/-- The ghost-cleanup condition (lines 1932-1936): the contract expired more
than 60 seconds ago. -/
def ghostExpired (now : ℤ) (c : MonContract) : Bool :=
  match c.expiry_time with
  | some e => decide (e + 60 < now)
  | none => false

/-- The profit-based TP/SL check at the end of the monitor loop (lines
1955-1977): thresholds are the configured values under `use_fixed_balance`,
else a percentage of the stake. -/
def monitorProfitCheck (p : MonParams) (now : ℤ) (c : MonContract) :
    Option MonContract × Bool :=
  let tp_threshold := if p.use_fixed then p.tp_val else c.stake * (p.tp_val / 100)
  let sl_threshold :=
    if p.use_fixed then -p.sl_val else -(c.stake * (p.sl_val / 100))
  if p.tp_enabled ∧ 0 < p.tp_val ∧ tp_threshold ≤ c.pnl then
    (some (closeAttempt now { c with is_closing := true }), true)
  else if p.sl_enabled ∧ 0 < p.sl_val ∧ c.pnl ≤ sl_threshold then
    (some (closeAttempt now { c with is_closing := true }), true)
  else (some c, false)

/-- One pass of `_monitor_open_contracts` over a single contract of the
monitored symbol.  `stratExit` abstracts the strategy-coupled exit
conditions of lines 1835-1906 (strategy 1 cross-back/ATR exits, strategy 5/7
divergence and trailing exits), each of which calls `_close_contract` and
moves on.  Returns the surviving contract (`none` when ghost-cleaned) and
whether a sell request was sent on this pass. -/
def monitorStep (p : MonParams) (now : ℤ) (price : Option ℚ)
    (stratExit : Bool) (c : MonContract) : Option MonContract × Bool :=
  if stratExit then (some (closeAttempt now c), true)
  else if priceTrigger p price c then (some (closeAttempt now c), true)
  else if ghostExpired now c then (none, false)
  else if c.is_closing then
    match c.last_close_attempt with
    | some t =>
        if 30 < now - t then (some (closeAttempt now c), true)
        else (some c, false)
    | none => (some c, false)
  else
    match c.purchase_time with
    | some pt =>
        if p.force_close_enabled ∧ p.force_close_duration ≤ now - pt then
          (some (closeAttempt now { c with is_closing := true }), true)
        else monitorProfitCheck p now c
    | none => monitorProfitCheck p now c

/- ### Screener scorecard signal and adaptive threshold
(`ScreenerHandler.analyze_strategy_5`, lines 110-255, and
`ScreenerHandler.analyze_strategy_6`, lines 257-373). -/

/-- Rounding to one decimal place, the `round(x, 1)` applied to the
published confidence.  (Python rounds ties to even; the two conventions
agree except at exact ties, and every theorem below is insensitive to the
tie-breaking choice.) -/
def round1 (x : ℚ) : ℚ := (round (10 * x) : ℚ) / 10

/-- The adaptive threshold of `analyze_strategy_5` (lines 200-203): base 68
in multiplier mode, 72 otherwise, raised by `(loss_streak - 2) * 5` when the
symbol's consecutive-loss streak is at least 3. -/
def strat5Threshold (is_multiplier : Bool) (loss_streak : ℕ) : ℕ :=
  let base := if is_multiplier then 68 else 72
  if 3 ≤ loss_streak then base + (loss_streak - 2) * 5 else base

/-- The threshold formula asserted by the specification (refinement target,
stated from the spec text, not from the source): base 72 scalp / 68
multiplier, plus 5 during dead hours (22:00-06:00 UTC), plus
`5 * (loss_streak - 2)` when the streak is at least 3. -/
def strat5ThresholdClaim (is_multiplier dead_hours : Bool)
    (loss_streak : ℕ) : ℕ :=
  (if is_multiplier then 68 else 72) + (if dead_hours then 5 else 0) +
    (if 3 ≤ loss_streak then 5 * (loss_streak - 2) else 0)

/-- The published part of a screener scorecard relevant to the signal
invariant. -/
structure Scorecard where
  signal : TradeSignal
  direction : TradeDir
  confidence : ℚ
  threshold : ℕ
deriving DecidableEq, Repr

/-- The echo-forecast veto (lines 211-216 and 333-338 of
`screener_handler.py`): when a forecast exists (`some (final, last_close)`),
a BUY whose forecast does not exceed the last close, or a SELL whose
forecast is not below it, is demoted to WAIT. -/
def applyEchoVeto (signal : TradeSignal) (fcast : Option (ℚ × ℚ)) :
    TradeSignal :=
  match fcast with
  | none => signal
  | some pr =>
      match signal with
      | .BUY => if pr.1 ≤ pr.2 then .WAIT else .BUY
      | .SELL => if pr.2 ≤ pr.1 then .WAIT else .SELL
      | .WAIT => .WAIT

/-- The scorecard published by `analyze_strategy_5`: confidence is
`min(100, abs(total_raw))`, the signal fires at the adaptive threshold, the
echo veto may demote it, and the stored confidence is rounded to one
decimal. -/
def scorecard5 (is_multiplier : Bool) (loss_streak : ℕ) (total_raw : ℚ)
    (fcast : Option (ℚ × ℚ)) : Scorecard :=
  let threshold := strat5Threshold is_multiplier loss_streak
  let confidence := min 100 |total_raw|
  let sig0 :=
    if (threshold : ℚ) ≤ confidence then
      if 0 < total_raw then TradeSignal.BUY else TradeSignal.SELL
    else TradeSignal.WAIT
  { signal := applyEchoVeto sig0 fcast,
    direction := if 0 < total_raw then .CALL else .PUT,
    confidence := round1 confidence,
    threshold := threshold }

/-- The scorecard published by `analyze_strategy_6`: confidence is
`min(100, abs(total_score) / 16 * 100)` with fixed threshold 60 and the same
echo veto. -/
def scorecard6 (total_score : ℚ) (fcast : Option (ℚ × ℚ)) : Scorecard :=
  let confidence := min 100 (|total_score| / 16 * 100)
  let sig0 :=
    if (60 : ℚ) ≤ confidence then
      if 0 < total_score then TradeSignal.BUY else TradeSignal.SELL
    else TradeSignal.WAIT
  { signal := applyEchoVeto sig0 fcast,
    direction := if 0 < total_score then .CALL else .PUT,
    confidence := round1 confidence,
    threshold := 60 }

/- ### Terminal contract update (`TradingBotEngine._handle_contract_update`,
lines 2212-2247). -/

/-- Session-level trade counters. -/
structure SessionStats where
  net_trade_profit : ℚ
  total_trade_profit : ℚ
  total_trade_loss : ℚ
  wins_count : ℕ
  losses_count : ℕ
  total_trades_count : ℕ
deriving DecidableEq, Repr

/-- Per-symbol win/loss streak counters. -/
structure StreakState where
  consecutive_wins : ℕ
  consecutive_losses : ℕ
deriving DecidableEq, Repr

/-- Bookkeeping for a terminal (`is_sold`) contract update with the reported
`profit`: the win branch runs only for strictly positive profit; everything
else (zero included) takes the loss branch.  `adx` is the screener ADX used
by the streak-reset rule of the win branch. -/
def handleSoldUpdate (profit adx : ℚ) (st : SessionStats)
    (sd : StreakState) : SessionStats × StreakState :=
  let st1 := { st with net_trade_profit := st.net_trade_profit + profit }
  if 0 < profit then
    let st2 :=
      { st1 with total_trade_profit := st1.total_trade_profit + profit,
                 wins_count := st1.wins_count + 1 }
    let sd1 : StreakState :=
      { consecutive_wins := sd.consecutive_wins + 1, consecutive_losses := 0 }
    let sd2 :=
      if 2 ≤ sd1.consecutive_wins ∨ 20 < adx then
        { sd1 with consecutive_losses := 0 }
      else sd1
    ({ st2 with total_trades_count := st2.total_trades_count + 1 }, sd2)
  else
    let st2 :=
      { st1 with total_trade_loss := st1.total_trade_loss + |profit|,
                 losses_count := st1.losses_count + 1 }
    let sd1 : StreakState :=
      { consecutive_wins := 0, consecutive_losses := sd.consecutive_losses + 1 }
    ({ st2 with total_trades_count := st2.total_trades_count + 1 }, sd1)

/- ## Helper lemmas -/

/-- Rounding to one decimal never drops below an integer bound that the
argument satisfies. -/
theorem natCast_le_round1 (n : ℕ) (x : ℚ) (h : (n : ℚ) ≤ x) :
    (n : ℚ) ≤ round1 x := by
  unfold round1
  rw [le_div_iff₀ (by norm_num : (0 : ℚ) < 10)]
  have h2 : 10 * (n : ℤ) ≤ round (10 * x) := by
    rw [round_eq]
    have hle : ((10 * (n : ℤ) : ℤ) : ℚ) ≤ 10 * x + 1 / 2 := by
      push_cast
      linarith
    calc 10 * (n : ℤ) = ⌊((10 * (n : ℤ) : ℤ) : ℚ)⌋ := (Int.floor_intCast _).symm
    _ ≤ ⌊10 * x + 1 / 2⌋ := Int.floor_le_floor hle
  have hz : ((10 * (n : ℤ) : ℤ) : ℚ) ≤ (round (10 * x) : ℚ) := by
    exact_mod_cast h2
  push_cast at hz
  linarith

/-- Rounding to one decimal preserves non-negativity. -/
theorem round1_nonneg (x : ℚ) (h : 0 ≤ x) : 0 ≤ round1 x := by
  have := natCast_le_round1 0 x (by exact_mod_cast h)
  exact_mod_cast this

/-- Arithmetic behind the LTF bucket epoch: flooring the minute of the hour
to a multiple of `m` and zeroing the seconds is, for `m` dividing 60, the
same as flooring the timestamp to the granularity `m * 60`. -/
theorem ltfNewEpoch_eq (m t : ℕ) (hm : 0 < m) (hdvd : m ∣ 60) :
    ltfNewEpoch m t = t / (m * 60) * (m * 60) := by
  obtain ⟨q, hq⟩ := hdvd
  have hk : 0 < m * 60 := by positivity
  have h3600 : m * 60 * q = 3600 := by
    have hq2 : m * q = 60 := hq.symm
    calc m * 60 * q = m * q * 60 := by ring
    _ = 60 * 60 := by rw [hq2]
    _ = 3600 := by norm_num
  have ht : t = m * 60 * (q * (t / 3600)) + t % 3600 := by
    conv_lhs => rw [← Nat.div_add_mod t 3600]
    rw [← h3600]; ring
  have hA : t / (m * 60) = q * (t / 3600) + t % 3600 / (m * 60) := by
    conv_lhs => rw [ht]
    exact Nat.mul_add_div hk _ _
  have hB : minuteOf t / m = t % 3600 / (m * 60) := by
    unfold minuteOf
    rw [Nat.div_div_eq_div_mul, mul_comm 60 m]
  unfold ltfNewEpoch
  rw [hB, hA]
  have hexp : (q * (t / 3600) + t % 3600 / (m * 60)) * (m * 60)
      = t / 3600 * (m * 60 * q) + t % 3600 / (m * 60) * (m * 60) := by ring
  rw [hexp, h3600]
  ring

/-- A fresh bucket is well-formed and aligned. -/
theorem newBucket_wf (g t : ℕ) (price : ℚ) :
    (newBucket g t price).wf ∧ (newBucket g t price).epoch = t / g * g := by
  refine ⟨⟨?_, ?_⟩, rfl⟩ <;> simp [newBucket]

/-- The in-bucket update preserves well-formedness and the epoch. -/
theorem updateBucket_wf (cd : Candle) (price : ℚ) (h : cd.wf) :
    (updateBucket cd price).wf ∧ (updateBucket cd price).epoch = cd.epoch := by
  obtain ⟨h1, h2⟩ := h
  have ho : cd.lo ≤ cd.o := le_trans h1 (min_le_left _ _)
  have ho2 : cd.o ≤ cd.hi := le_trans (le_max_left _ _) h2
  refine ⟨⟨?_, ?_⟩, rfl⟩
  · exact min_le_min ho (le_refl price)
  · exact max_le_max ho2 (le_refl price)

/- ## Claim theorems -/

/-- C8: every in-progress candle maintained by tick handling has its epoch
equal to `floor(t / g) * g` for the wall time `t` at which its bucket
started, and satisfies `low ≤ min(open, close) ≤ max(open, close) ≤ high`;
the new-bucket step (`open = high = low = close = price`) establishes this
and the in-bucket update (`high = max`, `low = min`, `close = price`)
preserves it, for both the HTF and the LTF paths of `_handle_tick` (the LTF
path computes the aligned epoch through minute flooring, which agrees with
`floor(t / g) * g` because every configured LTF minute count divides 60). -/
theorem inprogress_candle_invariants :
    (∀ (g t : ℕ) (price : ℚ),
       (newBucket g t price).wf ∧ (newBucket g t price).epoch = t / g * g) ∧
    (∀ (cd : Candle) (price : ℚ), cd.wf →
       (updateBucket cd price).wf ∧
       (updateBucket cd price).epoch = cd.epoch) ∧
    (∀ m t : ℕ, 0 < m → m ∣ 60 →
       ltfNewEpoch m t = t / (m * 60) * (m * 60)) ∧
    (∀ (g t : ℕ) (price : ℚ) (cur : Option Candle),
       (∀ cd, cur = some cd → cd.wf) →
       (htfTickStep g t price cur).2.wf ∧
       ((htfTickStep g t price cur).2.epoch = t / g * g ∨
        ∃ cd, cur = some cd ∧ (htfTickStep g t price cur).2.epoch = cd.epoch)) ∧
    (∀ (m t : ℕ) (price : ℚ) (cd : Candle), 0 < m → m ∣ 60 → cd.wf →
       (ltfTickStep m t price cd).2.wf ∧
       ((ltfTickStep m t price cd).2.epoch = t / (m * 60) * (m * 60) ∨
        (ltfTickStep m t price cd).2.epoch = cd.epoch)) := by
  refine ⟨newBucket_wf, updateBucket_wf, ltfNewEpoch_eq, ?_, ?_⟩
  · intro g t price cur hwf
    cases cur with
    | none =>
        exact ⟨(newBucket_wf g t price).1, Or.inl (newBucket_wf g t price).2⟩
    | some cd =>
        by_cases h : cd.epoch + g ≤ t
        · have heq : htfTickStep g t price (some cd) =
              (some cd, newBucket g t price) := by
            simp [htfTickStep, h]
          rw [heq]
          exact ⟨(newBucket_wf g t price).1, Or.inl (newBucket_wf g t price).2⟩
        · have hcd := hwf cd rfl
          have heq : htfTickStep g t price (some cd) =
              (none, updateBucket cd price) := by
            simp [htfTickStep, h]
          rw [heq]
          exact ⟨(updateBucket_wf cd price hcd).1,
            Or.inr ⟨cd, rfl, (updateBucket_wf cd price hcd).2⟩⟩
  · intro m t price cd hm hdvd hwf
    by_cases h : cd.epoch + m * 60 ≤ t
    · have heq : ltfTickStep m t price cd =
          (some cd, ⟨ltfNewEpoch m t, price, price, price, price⟩) := by
        simp [ltfTickStep, h]
      rw [heq]
      refine ⟨⟨by simp, by simp⟩, Or.inl ?_⟩
      exact ltfNewEpoch_eq m t hm hdvd
    · have heq : ltfTickStep m t price cd = (none, updateBucket cd price) := by
        simp [ltfTickStep, h]
      rw [heq]
      exact ⟨(updateBucket_wf cd price hwf).1,
        Or.inr (updateBucket_wf cd price hwf).2⟩

/-- Witness for C8 at concrete inputs: a bucket opened by a tick at `t = 125`
with granularity 60, updated by a later tick, stays well-formed, and the LTF
minute-floored epoch for a 5-minute candle at `t = 7512` is the granularity
floor. -/
theorem inprogress_candle_invariants_witness :
    (updateBucket (newBucket 60 125 7) 9).wf ∧
    ltfNewEpoch 5 7512 = 7512 / 300 * 300 := by
  refine ⟨(inprogress_candle_invariants.2.1 (newBucket 60 125 7) 9
    (inprogress_candle_invariants.1 60 125 7).1).1, ?_⟩
  have h := inprogress_candle_invariants.2.2.1 5 7512 (by norm_num) (by norm_num)
  simpa using h

/-- C5: with a known nonzero entry and positive configured TP/SL values, the
computed target prices are, for a multiplier contract without strategy-5 pip
levels, exactly the prices solving
`profit = (price - entry) / entry * multiplier * stake` at the configured
USD thresholds (the configured values under `use_fixed_balance`, else
`stake * pct / 100`), long and short mirrored; and for a binary contract
(falsy multiplier) the fail-safe prices `entry * 1.01` / `entry * 0.99`
(long), mirrored for a short. -/
theorem target_prices_formula (entry tp_val sl_val stake mult : ℚ)
    (use_fixed : Bool) (side : Side)
    (he : entry ≠ 0) (htp : 0 < tp_val) (hsl : 0 < sl_val) :
    (mult ≠ 0 →
      calculateTargetPrices entry tp_val sl_val use_fixed stake (some mult)
          side none =
        (if side = .long then
          (some (entry * (1 + (if use_fixed then tp_val
              else stake * tp_val / 100) / (mult * stake))),
           some (entry * (1 - (if use_fixed then sl_val
              else stake * sl_val / 100) / (mult * stake))))
         else
          (some (entry * (1 - (if use_fixed then tp_val
              else stake * tp_val / 100) / (mult * stake))),
           some (entry * (1 + (if use_fixed then sl_val
              else stake * sl_val / 100) / (mult * stake))))) ∨
      mult * stake = 0) ∧
    (∀ profit : ℚ, mult * stake ≠ 0 →
      (entry * (1 + profit / (mult * stake)) - entry) / entry * mult * stake
        = profit) ∧
    (calculateTargetPrices entry tp_val sl_val use_fixed stake none side
        none =
      (if side = .long then
        (some (entry * (101 / 100)), some (entry * (99 / 100)))
       else (some (entry * (99 / 100)), some (entry * (101 / 100))))) := by
  refine ⟨?_, ?_, ?_⟩
  · intro hm
    by_cases hms : mult * stake = 0
    · exact Or.inr hms
    · left
      unfold calculateTargetPrices
      rw [if_neg he, if_neg (not_not.mpr (Or.inl htp))]
      simp only [if_neg hm, if_neg hms]
      cases side <;> simp [htp, hsl]
  · intro profit hms
    field_simp
    ring
  · unfold calculateTargetPrices binaryTargets
    rw [if_neg he, if_neg (not_not.mpr (Or.inl htp))]
    cases side <;> simp [htp, hsl]

/-- Witness for C5 at a concrete multiplier contract
(entry 5000, multiplier 50, stake 10, fixed TP 3 USD / SL 2 USD, long) and
its binary counterpart. -/
theorem target_prices_formula_witness :
    calculateTargetPrices 5000 3 2 true 10 (some 50) Side.long none =
      (some 5030, some 4980) ∧
    calculateTargetPrices 5000 3 2 true 10 none Side.long none =
      (some 5050, some 4950) ∧
    (5030 - 5000) / 5000 * 50 * 10 = (3 : ℚ) := by
  have h := target_prices_formula 5000 3 2 10 50 true Side.long
    (by norm_num) (by norm_num) (by norm_num)
  have h1 := h.1 (by norm_num)
  have h3 := h.2.2
  rcases h1 with h1 | h1
  · refine ⟨?_, ?_, by norm_num⟩
    · rw [h1]; norm_num
    · rw [h3]; norm_num
  · exact absurd h1 (by norm_num)

/-- C10: a terminal (`is_sold`) contract update reporting profit exactly 0
is recorded as a loss: `losses_count` and the symbol's `consecutive_losses`
are incremented, `consecutive_wins` is reset to 0 and `total_trade_loss`
grows by `abs(profit)` (which is 0 here), exactly the update applied for any
non-positive profit; `wins_count` is incremented exactly when the profit is
strictly positive. -/
theorem zero_profit_counted_as_loss (adx : ℚ) (st : SessionStats)
    (sd : StreakState) :
    ((handleSoldUpdate 0 adx st sd).1.losses_count = st.losses_count + 1 ∧
     (handleSoldUpdate 0 adx st sd).1.total_trade_loss =
       st.total_trade_loss + |(0 : ℚ)| ∧
     (handleSoldUpdate 0 adx st sd).1.wins_count = st.wins_count ∧
     (handleSoldUpdate 0 adx st sd).2.consecutive_losses =
       sd.consecutive_losses + 1 ∧
     (handleSoldUpdate 0 adx st sd).2.consecutive_wins = 0) ∧
    (∀ profit : ℚ, profit ≤ 0 →
      handleSoldUpdate profit adx st sd =
        ({ st with net_trade_profit := st.net_trade_profit + profit,
                   total_trade_loss := st.total_trade_loss + |profit|,
                   losses_count := st.losses_count + 1,
                   total_trades_count := st.total_trades_count + 1 },
         { consecutive_wins := 0,
           consecutive_losses := sd.consecutive_losses + 1 })) ∧
    (∀ profit : ℚ,
      ((handleSoldUpdate profit adx st sd).1.wins_count = st.wins_count + 1 ↔
        0 < profit)) := by
  refine ⟨?_, ?_, ?_⟩
  · simp [handleSoldUpdate]
  · intro profit hp
    simp [handleSoldUpdate, not_lt.mpr hp]
  · intro profit
    by_cases hp : 0 < profit
    · simp [handleSoldUpdate, hp]
    · simp [handleSoldUpdate, hp]

/-- Witness for C10: a closed trade with profit exactly 0 on a fresh session
increments the loss counters. -/
theorem zero_profit_counted_as_loss_witness :
    handleSoldUpdate 0 0 ⟨0, 0, 0, 0, 0, 0⟩ ⟨0, 0⟩ =
      (⟨0, 0, 0, 0, 1, 1⟩, ⟨0, 1⟩) := by
  have h := (zero_profit_counted_as_loss 0 ⟨0, 0, 0, 0, 0, 0⟩ ⟨0, 0⟩).2.1 0
    (le_refl 0)
  rw [h]
  norm_num

/-- C1: whenever the evaluator (`StrategyHandler.process_strategy`, the
authoritative variant per the repository design notes) runs with
`daily_start_balance > 0` and the daily PnL percentage is at or beyond the
loss cap or the profit cap, it clears the running flag and returns without
executing a trade, whatever the symbol, market state and per-strategy
signal. -/
theorem daily_risk_gate_halts (cfg : GateConfig) (st : EngineGateState)
    (sd : SymbolDedup) (ho : Option ℚ) (ltf : Option Candle) (lt : Option ℚ)
    (icc : Bool) (sig : Option BuySell)
    (h0 : 0 < st.daily_start_balance)
    (h : dailyPnlPct st ≤ -cfg.max_daily_loss_pct ∨
         cfg.max_daily_profit_pct ≤ dailyPnlPct st) :
    (processStrategy cfg st sd ho ltf lt icc sig).intent = none ∧
    (processStrategy cfg st sd ho ltf lt icc sig).engine.is_running = false := by
  unfold processStrategy
  rw [if_pos h0]
  by_cases hl : dailyPnlPct st ≤ -cfg.max_daily_loss_pct
  · rw [if_pos hl]; exact ⟨rfl, rfl⟩
  · have hp : cfg.max_daily_profit_pct ≤ dailyPnlPct st := h.resolve_left hl
    rw [if_neg hl, if_pos hp]; exact ⟨rfl, rfl⟩

/-- Witness for C1: daily start 100, equity 94, loss cap 5 percent: the pnl
is -6 percent, the gate stops trading and no intent is produced, even with a
buy signal pending. -/
theorem daily_risk_gate_halts_witness :
    (processStrategy ⟨5, 10⟩ ⟨100, 94, [], true⟩ ⟨none, none⟩ (some 1)
        (some ⟨0, 1, 1, 1, 1⟩) (some 1) true (some .buy)).intent = none ∧
    (processStrategy ⟨5, 10⟩ ⟨100, 94, [], true⟩ ⟨none, none⟩ (some 1)
        (some ⟨0, 1, 1, 1, 1⟩) (some 1) true
        (some .buy)).engine.is_running = false :=
  daily_risk_gate_halts ⟨5, 10⟩ ⟨100, 94, [], true⟩ ⟨none, none⟩ (some 1)
    (some ⟨0, 1, 1, 1, 1⟩) (some 1) true (some .buy) (by norm_num)
    (Or.inl (by norm_num [dailyPnlPct, currentEquity]))

/-- A step at an epoch already recorded in `last_trade_ltf` executes nothing
and leaves the dedup state unchanged. -/
theorem stepAt_already_traded (cfg : GateConfig) (epoch : ℕ)
    (e : MainEvalInput) (sd : SymbolDedup)
    (h : sd.last_trade_ltf = some epoch) :
    (stepAt cfg epoch e sd).intent = none ∧
    (stepAt cfg epoch e sd).sd = sd := by
  unfold stepAt processStrategy processStrategyBody
  dsimp only
  by_cases h0 : 0 < e.st.daily_start_balance
  · rw [if_pos h0]
    by_cases hl : dailyPnlPct e.st ≤ -cfg.max_daily_loss_pct
    · rw [if_pos hl]; exact ⟨rfl, rfl⟩
    · rw [if_neg hl]
      by_cases hp : cfg.max_daily_profit_pct ≤ dailyPnlPct e.st
      · rw [if_pos hp]; exact ⟨rfl, rfl⟩
      · rw [if_neg hp]
        by_cases hproc : sd.last_processed_ltf = some epoch ∧ e.is_candle_close
        · rw [if_pos hproc]; exact ⟨rfl, rfl⟩
        · rw [if_neg hproc]
          cases e.signal with
          | none => exact ⟨rfl, rfl⟩
          | some s => dsimp only; rw [if_pos h]; exact ⟨rfl, rfl⟩
  · rw [if_neg h0]
    by_cases hproc : sd.last_processed_ltf = some epoch ∧ e.is_candle_close
    · rw [if_pos hproc]; exact ⟨rfl, rfl⟩
    · rw [if_neg hproc]
      cases e.signal with
      | none => exact ⟨rfl, rfl⟩
      | some s => dsimp only; rw [if_pos h]; exact ⟨rfl, rfl⟩

/-- Each step either executes nothing and leaves the dedup state unchanged,
or leaves `last_trade_ltf` stamped with the current epoch. -/
theorem stepAt_cases (cfg : GateConfig) (epoch : ℕ) (e : MainEvalInput)
    (sd : SymbolDedup) :
    ((stepAt cfg epoch e sd).intent = none ∧
     (stepAt cfg epoch e sd).sd = sd) ∨
    (stepAt cfg epoch e sd).sd.last_trade_ltf = some epoch := by
  unfold stepAt processStrategy processStrategyBody
  dsimp only
  by_cases h0 : 0 < e.st.daily_start_balance
  · rw [if_pos h0]
    by_cases hl : dailyPnlPct e.st ≤ -cfg.max_daily_loss_pct
    · rw [if_pos hl]; exact Or.inl ⟨rfl, rfl⟩
    · rw [if_neg hl]
      by_cases hp : cfg.max_daily_profit_pct ≤ dailyPnlPct e.st
      · rw [if_pos hp]; exact Or.inl ⟨rfl, rfl⟩
      · rw [if_neg hp]
        by_cases hproc : sd.last_processed_ltf = some epoch ∧ e.is_candle_close
        · rw [if_pos hproc]; exact Or.inl ⟨rfl, rfl⟩
        · rw [if_neg hproc]
          cases e.signal with
          | none => exact Or.inl ⟨rfl, rfl⟩
          | some s =>
              dsimp only
              by_cases ht : sd.last_trade_ltf = some epoch
              · rw [if_pos ht]; exact Or.inl ⟨rfl, rfl⟩
              · rw [if_neg ht]; exact Or.inr rfl
  · rw [if_neg h0]
    by_cases hproc : sd.last_processed_ltf = some epoch ∧ e.is_candle_close
    · rw [if_pos hproc]; exact Or.inl ⟨rfl, rfl⟩
    · rw [if_neg hproc]
      cases e.signal with
      | none => exact Or.inl ⟨rfl, rfl⟩
      | some s =>
          dsimp only
          by_cases ht : sd.last_trade_ltf = some epoch
          · rw [if_pos ht]; exact Or.inl ⟨rfl, rfl⟩
          · rw [if_neg ht]; exact Or.inr rfl

/-- Once the epoch is recorded, a whole sequence of further evaluations at
that epoch executes nothing. -/
theorem countTrades_eq_zero (cfg : GateConfig) (epoch : ℕ)
    (evals : List MainEvalInput) :
    ∀ sd : SymbolDedup, sd.last_trade_ltf = some epoch →
      countTrades cfg epoch evals sd = 0 := by
  induction evals with
  | nil => intro sd _; rfl
  | cons e rest ih =>
      intro sd h
      have h2 := stepAt_already_traded cfg epoch e sd h
      simp only [countTrades, h2.1, h2.2, Option.isSome_none,
        Bool.false_eq_true, if_false, Nat.zero_add]
      exact ih sd h

/-- The strategy-7 tail at a minute already recorded executes nothing and
leaves the key unchanged. -/
theorem strat7_already_traded (last : Option ℕ) (now : ℕ)
    (sig : Option BuySell) (h : last = some (now / 60)) :
    (strat7TailStep last now sig).2 = none ∧
    (strat7TailStep last now sig).1 = last := by
  cases sig with
  | none => exact ⟨rfl, rfl⟩
  | some s => simp [strat7TailStep, h]

/-- Each strategy-7 tail step either executes nothing keeping its key, or
stamps the key with the current minute. -/
theorem strat7_cases (last : Option ℕ) (now : ℕ) (sig : Option BuySell) :
    ((strat7TailStep last now sig).2 = none ∧
     (strat7TailStep last now sig).1 = last) ∨
    (strat7TailStep last now sig).1 = some (now / 60) := by
  cases sig with
  | none => exact Or.inl ⟨rfl, rfl⟩
  | some s =>
      by_cases h : last = some (now / 60)
      · simp [strat7TailStep, h]
      · simp [strat7TailStep, h]

/-- Once the minute key is recorded, further strategy-7 evaluations in the
same minute execute nothing. -/
theorem countTrades7_eq_zero (m : ℕ) (evals : List (ℕ × Option BuySell)) :
    ∀ last : Option ℕ, last = some m → (∀ x ∈ evals, x.1 / 60 = m) →
      countTrades7 evals last = 0 := by
  induction evals with
  | nil => intro last _ _; rfl
  | cons e rest ih =>
      intro last h hmin
      obtain ⟨now, sig⟩ := e
      have hk : now / 60 = m := hmin (now, sig) (List.mem_cons_self _ _)
      have h2 := strat7_already_traded last now sig (by rw [hk, h])
      simp only [countTrades7, h2.1, h2.2, Option.isSome_none,
        Bool.false_eq_true, if_false, Nat.zero_add]
      exact ih last h (fun x hx => hmin x (List.mem_cons_of_mem _ hx))

/-- C2: for every symbol and every LTF candle epoch the evaluator executes
at most one trade: once `last_trade_ltf` holds the epoch, every further
evaluation at that epoch returns without trading, and any sequence of
evaluations at one fixed epoch (ticks and candle-close notifications alike,
under arbitrary engine states and per-strategy signals) executes at most one
trade; likewise for the minute-keyed dedup of the in-engine strategy-7
path. -/
theorem ltf_epoch_at_most_one_trade :
    (∀ (cfg : GateConfig) (epoch : ℕ) (e : MainEvalInput) (sd : SymbolDedup),
       sd.last_trade_ltf = some epoch →
       (stepAt cfg epoch e sd).intent = none) ∧
    (∀ (cfg : GateConfig) (epoch : ℕ) (evals : List MainEvalInput)
       (sd : SymbolDedup), countTrades cfg epoch evals sd ≤ 1) ∧
    (∀ (m : ℕ) (evals : List (ℕ × Option BuySell)) (last : Option ℕ),
       (∀ x ∈ evals, x.1 / 60 = m) → countTrades7 evals last ≤ 1) := by
  refine ⟨fun cfg epoch e sd h => (stepAt_already_traded cfg epoch e sd h).1,
    ?_, ?_⟩
  · intro cfg epoch evals
    induction evals with
    | nil => intro sd; simp [countTrades]
    | cons e rest ih =>
        intro sd
        rcases stepAt_cases cfg epoch e sd with ⟨h1, h2⟩ | h
        · simp only [countTrades, h1, h2, Option.isSome_none,
            Bool.false_eq_true, if_false]
          exact Nat.le_trans (Nat.le_of_eq (Nat.zero_add _)) (ih sd)
        · have hz := countTrades_eq_zero cfg epoch rest _ h
          simp only [countTrades, hz]
          split <;> omega
  · intro m evals
    induction evals with
    | nil => intro last _; simp [countTrades7]
    | cons e rest ih =>
        intro last hmin
        obtain ⟨now, sig⟩ := e
        have hrest : ∀ x ∈ rest, x.1 / 60 = m :=
          fun x hx => hmin x (List.mem_cons_of_mem _ hx)
        rcases strat7_cases last now sig with ⟨h1, h2⟩ | h
        · simp only [countTrades7, h1, h2, Option.isSome_none,
            Bool.false_eq_true, if_false]
          exact Nat.le_trans (Nat.le_of_eq (Nat.zero_add _)) (ih last hrest)
        · have hk : now / 60 = m := hmin (now, sig) (List.mem_cons_self _ _)
          have hz := countTrades7_eq_zero m rest
            ((strat7TailStep last now sig).1) (by rw [h, hk]) hrest
          simp only [countTrades7, hz]
          split <;> omega

/-- Witness for C2: with epoch 300 already recorded a pending buy signal is
not executed, and two strategy-7 evaluations in the same wall-clock minute
execute at most one trade. -/
theorem ltf_epoch_at_most_one_trade_witness :
    (stepAt ⟨5, 10⟩ 300
        ⟨⟨100, 100, [], true⟩, 1, 1, 1, 1, 1, 1, false, some .buy⟩
        ⟨some 300, none⟩).intent = none ∧
    countTrades7 [(60, some .buy), (90, some .buy)] none ≤ 1 :=
  ⟨ltf_epoch_at_most_one_trade.1 ⟨5, 10⟩ 300
      ⟨⟨100, 100, [], true⟩, 1, 1, 1, 1, 1, 1, false, some .buy⟩
      ⟨some 300, none⟩ rfl,
   ltf_epoch_at_most_one_trade.2.2 1 [(60, some .buy), (90, some .buy)] none
     (by decide)⟩

/-- C4 counterexample: with two open contracts on the same symbol — an
opposite-side one (cid 1) inserted before a same-side one (cid 2) — a buy
intent is not dropped: the scan stops at contract 1, sells it and proceeds
to buy, although an open same-side contract exists, contradicting the
claim's first clause. -/
theorem same_side_intent_not_dropped :
    positionCheck [(1, ⟨0, .short⟩), (2, ⟨0, .long⟩)] 0 BuySell.buy.toSide =
      ExecAction.closeThenOpen 1 ∧
    (2, (⟨0, Side.long⟩ : OpenContractRec)) ∈
      [(1, (⟨0, Side.short⟩ : OpenContractRec)), (2, ⟨0, Side.long⟩)] ∧
    (⟨0, Side.long⟩ : OpenContractRec).side = BuySell.buy.toSide ∧
    ExecAction.closeThenOpen 1 ≠ ExecAction.drop := by decide

/-- C4 amended: the execution scans the open contracts in insertion order
and acts on the first contract listed for the symbol: if that contract has
the same side the intent is dropped and no buy is sent; if it has the
opposite side a sell for it is issued and the buy still proceeds; with no
contract for the symbol the buy proceeds directly.  (When at most one open
contract exists per symbol this coincides with the original claim.) -/
theorem positionCheck_first_match (cs : List (ℕ × OpenContractRec))
    (symbol : ℕ) (s : Side) :
    (firstFor cs symbol = none →
      positionCheck cs symbol s = .openOnly) ∧
    (∀ cid c, firstFor cs symbol = some (cid, c) →
      (c.side = s → positionCheck cs symbol s = .drop) ∧
      (c.side ≠ s → positionCheck cs symbol s = .closeThenOpen cid)) := by
  induction cs with
  | nil =>
      refine ⟨fun _ => rfl, fun cid c h => ?_⟩
      simp [firstFor] at h
  | cons hd tl ih =>
      obtain ⟨cid0, c0⟩ := hd
      by_cases hs : c0.symbol = symbol
      · constructor
        · intro h
          exfalso
          simp [firstFor, List.find?, hs] at h
        · intro cid c h
          have : cid0 = cid ∧ c0 = c := by
            simpa [firstFor, List.find?, hs] using h
          obtain ⟨rfl, rfl⟩ := this
          constructor
          · intro hside
            simp [positionCheck, hs, hside]
          · intro hside
            simp [positionCheck, hs, hside]
      · have hfirst : firstFor ((cid0, c0) :: tl) symbol = firstFor tl symbol := by
          simp [firstFor, List.find?, hs]
        have hpos : positionCheck ((cid0, c0) :: tl) symbol s =
            positionCheck tl symbol s := by
          simp [positionCheck, hs]
        rw [hfirst, hpos]
        exact ih

/-- Witness for C4 amended: a single same-side contract drops the intent,
and a single opposite-side contract is closed before buying. -/
theorem positionCheck_first_match_witness :
    positionCheck [(3, ⟨7, Side.long⟩)] 7 Side.long = ExecAction.drop ∧
    positionCheck [(4, ⟨7, Side.short⟩)] 7 Side.long =
      ExecAction.closeThenOpen 4 :=
  ⟨((positionCheck_first_match [(3, ⟨7, Side.long⟩)] 7 Side.long).2 3
      ⟨7, Side.long⟩ (by decide)).1 rfl,
   ((positionCheck_first_match [(4, ⟨7, Side.short⟩)] 7 Side.long).2 4
      ⟨7, Side.short⟩ (by decide)).2 (by decide)⟩

/-- C6 counterexample: a long contract whose tick price sits at or above its
`tp_price` receives a sell request from the price-based fail-safe on two
consecutive monitor passes one second apart, although the first pass stamped
`last_close_attempt` (and even though a close attempt 5 seconds old was
already on record), contradicting the claimed 30-second throttle. -/
theorem tp_close_not_throttled :
    (monitorStep ⟨true, false, false, true, 60, 1, 0⟩ 100 (some 101) false
        ⟨Side.long, some 100, none, none, none, false, some 95, 0, 1⟩).2 =
      true ∧
    (monitorStep ⟨true, false, false, true, 60, 1, 0⟩ 100 (some 101) false
        ⟨Side.long, some 100, none, none, none, false, some 95, 0, 1⟩).1 =
      some ⟨Side.long, some 100, none, none, none, false, some 100, 0, 1⟩ ∧
    (monitorStep ⟨true, false, false, true, 60, 1, 0⟩ 101 (some 101) false
        ⟨Side.long, some 100, none, none, none, false, some 100, 0, 1⟩).2 =
      true ∧
    ((100 : ℤ) - 95 ≤ 30 ∧ (101 : ℤ) - 100 ≤ 30) := by decide

/-- C6 amended: the 30-second cooldown governs only the retry path for
contracts already marked `is_closing`: when no strategy exit fires, the
price-based fail-safe does not trigger and the contract is not a ghost, a
contract in the closing state gets a sell request exactly when a recorded
`last_close_attempt` lies more than 30 seconds in the past; the price-based
fail-safe path itself (and the strategy exits) may issue sell requests
without any cooldown. -/
theorem closing_retry_cooldown (p : MonParams) (now : ℤ) (price : Option ℚ)
    (c : MonContract) (h1 : c.is_closing = true)
    (h2 : priceTrigger p price c = false)
    (h3 : ghostExpired now c = false) :
    (monitorStep p now price false c).2 = true ↔
      ∃ t, c.last_close_attempt = some t ∧ 30 < now - t := by
  unfold monitorStep
  rw [if_neg (by simp : ¬(false = true)), h2, h3, h1]
  simp only [Bool.false_eq_true, if_false, if_true]
  cases hlc : c.last_close_attempt with
  | none => simp
  | some t =>
      by_cases ht : 30 < now - t
      · simp [ht]
      · simp [ht]

/-- Witness for C6 amended: a closing contract with a 170-second-old close
attempt and no competing trigger is resent a sell. -/
theorem closing_retry_cooldown_witness :
    (monitorStep ⟨false, false, false, true, 60, 0, 0⟩ 200 none false
        ⟨Side.long, none, none, none, none, true, some 30, 0, 1⟩).2 =
      true :=
  (closing_retry_cooldown ⟨false, false, false, true, 60, 0, 0⟩ 200 none
      ⟨Side.long, none, none, none, none, true, some 30, 0, 1⟩ rfl
      (by decide) (by decide)).mpr ⟨30, rfl, by decide⟩

/-- C7: every scorecard published by `analyze_strategy_5` or
`analyze_strategy_6` with a BUY or SELL signal has the absolute value of its
(rounded) confidence at least its threshold, and the echo-forecast veto can
only demote BUY/SELL to WAIT, never promote WAIT, so the invariant survives
the veto step. -/
theorem scorecard_signal_invariant :
    (∀ (im : Bool) (ls : ℕ) (traw : ℚ) (fc : Option (ℚ × ℚ)),
       (scorecard5 im ls traw fc).signal ≠ .WAIT →
       ((scorecard5 im ls traw fc).threshold : ℚ) ≤
         |(scorecard5 im ls traw fc).confidence|) ∧
    (∀ (ts : ℚ) (fc : Option (ℚ × ℚ)),
       (scorecard6 ts fc).signal ≠ .WAIT →
       ((scorecard6 ts fc).threshold : ℚ) ≤ |(scorecard6 ts fc).confidence|) ∧
    (∀ (s : TradeSignal) (fc : Option (ℚ × ℚ)),
       applyEchoVeto s fc = s ∨ applyEchoVeto s fc = .WAIT) ∧
    (∀ fc : Option (ℚ × ℚ), applyEchoVeto .WAIT fc = .WAIT) := by
  have hveto : ∀ (s : TradeSignal) (fc : Option (ℚ × ℚ)),
      applyEchoVeto s fc = s ∨ applyEchoVeto s fc = .WAIT := by
    intro s fc
    cases fc with
    | none => exact Or.inl rfl
    | some pr =>
        cases s with
        | BUY =>
            by_cases h : pr.1 ≤ pr.2
            · exact Or.inr (by simp [applyEchoVeto, h])
            · exact Or.inl (by simp [applyEchoVeto, h])
        | SELL =>
            by_cases h : pr.2 ≤ pr.1
            · exact Or.inr (by simp [applyEchoVeto, h])
            · exact Or.inl (by simp [applyEchoVeto, h])
        | WAIT => exact Or.inr rfl
  have hwait : ∀ fc : Option (ℚ × ℚ), applyEchoVeto .WAIT fc = .WAIT := by
    intro fc
    cases fc with
    | none => rfl
    | some pr => rfl
  refine ⟨?_, ?_, hveto, hwait⟩
  · intro im ls traw fc hsig
    unfold scorecard5 at hsig ⊢
    dsimp only at hsig ⊢
    set thr := strat5Threshold im ls with hthr
    set conf := min 100 |traw| with hconf
    have hconf0 : 0 ≤ conf := le_min (by norm_num) (abs_nonneg _)
    by_cases hge : (thr : ℚ) ≤ conf
    · rw [abs_of_nonneg (round1_nonneg conf hconf0)]
      exact natCast_le_round1 thr conf hge
    · exfalso
      apply hsig
      rw [if_neg hge]
      exact hwait fc
  · intro ts fc hsig
    unfold scorecard6 at hsig ⊢
    dsimp only at hsig ⊢
    set conf := min 100 (|ts| / 16 * 100) with hconf
    have hconf0 : 0 ≤ conf := le_min (by norm_num) (by positivity)
    by_cases hge : (60 : ℚ) ≤ conf
    · rw [abs_of_nonneg (round1_nonneg conf hconf0)]
      exact_mod_cast natCast_le_round1 60 conf (by exact_mod_cast hge)
    · exfalso
      apply hsig
      rw [if_neg hge]
      exact hwait fc

/-- Witness for C7: a strategy-5 scalp scorecard with raw score 80 fires BUY
and indeed satisfies the invariant. -/
theorem scorecard_signal_invariant_witness :
    ((scorecard5 false 0 80 none).threshold : ℚ) ≤
      |(scorecard5 false 0 80 none).confidence| :=
  scorecard_signal_invariant.1 false 0 80 none (by decide)

/-- C9 counterexample: during a dead hour (for instance 23:00 UTC) with a
zero loss streak in scalp mode, the claimed formula yields threshold 77,
but `analyze_strategy_5` publishes threshold 72: the handler's adaptive
threshold has no dead-hours term at all. -/
theorem strat5_threshold_no_dead_hours_bump :
    (scorecard5 false 0 0 none).threshold = 72 ∧
    strat5Threshold false 0 = 72 ∧
    strat5ThresholdClaim false true 0 = 77 ∧
    strat5Threshold false 0 ≠ strat5ThresholdClaim false true 0 := by decide

/-- C9 amended: strategy 5's adaptive screener threshold equals a base of 72
in scalp mode or 68 in multiplier mode, plus `5 * (loss_streak - 2)`
whenever the symbol's consecutive-loss streak is at least 3; there is no
dead-hours adjustment, and for any streak below 3 the threshold equals the
base. -/
theorem strat5_threshold_formula (im : Bool) (ls : ℕ) (traw : ℚ)
    (fc : Option (ℚ × ℚ)) :
    (scorecard5 im ls traw fc).threshold =
      (if im then 68 else 72) + (if 3 ≤ ls then (ls - 2) * 5 else 0) := by
  unfold scorecard5 strat5Threshold
  dsimp only
  by_cases h : 3 ≤ ls
  · simp [h, Nat.mul_comm]
  · simp [h]

/-- C3 counterexample: under strategy 6 (rise-and-fall mode) a scorecard
whose signal is WAIT, whose forecast correlation is 0, whose structural
reward/risk is 0 and whose `last_update` is 1000 seconds in the past still
produces a buy intent, because the evaluator only compares the absolute
confidence (80) against the threshold (60) and never reads the signal,
correlation, R/R or age fields. -/
theorem intelligence_ignores_scorecard_gates :
    processIntelligence true false
        (some ⟨80, .CALL, some 60, some 0, .WAIT, some 0, 0, 0⟩)
        ⟨false, 0, 0, 0, 0, 0, none, none, none, 0, [], [], [], none⟩ =
      some BuySell.buy ∧
    (⟨80, TradeDir.CALL, some 60, some 0, TradeSignal.WAIT, some 0, 0,
        0⟩ : ScreenerMetrics).signal ≠ .BUY ∧
    (⟨80, TradeDir.CALL, some 60, some 0, TradeSignal.WAIT, some 0, 0,
        0⟩ : ScreenerMetrics).signal ≠ .SELL ∧
    (2 * (⟨80, TradeDir.CALL, some 60, some 0, TradeSignal.WAIT, some 0, 0,
        0⟩ : ScreenerMetrics).correlation.getD 0 < 1) ∧
    (2 * (⟨80, TradeDir.CALL, some 60, some 0, TradeSignal.WAIT, some 0, 0,
        0⟩ : ScreenerMetrics).rr < 3) ∧
    (30 < (1000 : ℚ) -
      (⟨80, TradeDir.CALL, some 60, some 0, TradeSignal.WAIT, some 0, 0,
        0⟩ : ScreenerMetrics).last_update) := by
  refine ⟨by decide, by decide, by decide, by norm_num, by norm_num,
    by norm_num⟩

/-- C3 amended: for strategies 5 and 6 an Open intent is emitted only when
the scorecard's absolute confidence reaches the effective threshold (60 for
strategy 6, else the published threshold with default 72 scalp / 68
multiplier) — the scorecard's signal, forecast correlation, structural R/R
and age are not consulted; for strategy 7 an intent additionally requires
the cached multi-timeframe analysis to be at most 65 seconds old and the
over-ADR guard to be clear. -/
theorem intelligence_entry_gates :
    (∀ (strat6 im : Bool) (metrics : Option ScreenerMetrics)
       (ind : IntelInputs) (s : BuySell),
       processIntelligence strat6 im metrics ind = some s →
       ∃ m, metrics = some m ∧
         intelThreshold strat6 im m ≤ |m.confidence|) ∧
    (∀ (off : Bool) (cc : Strat7Cache) (oa : Bool) (now : ℚ)
       (prev : Option TaRec) (s : BuySell),
       (processStrat7 off (some cc) oa now prev).1 = some s →
       now - cc.timestamp ≤ 65 ∧ oa = false) := by
  constructor
  · intro strat6 im metrics ind s h
    cases metrics with
    | none => exact absurd h (by simp [processIntelligence])
    | some m =>
        refine ⟨m, rfl, ?_⟩
        by_contra hlt
        have hlt2 : |m.confidence| < intelThreshold strat6 im m :=
          not_le.mp hlt
        have hnone : processIntelligence strat6 im (some m) ind = none := by
          unfold processIntelligence
          dsimp only
          rw [if_pos hlt2]
        rw [hnone] at h
        exact Option.noConfusion h
  · intro off cc oa now prev s h
    unfold processStrat7 at h
    by_cases hoa : oa = true
    · rw [hoa] at h
      simp at h
    · have hoa2 : oa = false := by
        cases oa
        · rfl
        · exact absurd rfl hoa
      rw [hoa2] at h
      simp only [Bool.false_eq_true, if_false] at h
      by_cases hst : 65 < now - cc.timestamp
      · rw [if_pos hst] at h
        simp at h
      · exact ⟨not_lt.mp hst, hoa2⟩

/-- Witness for C3 amended: applying the gate characterization at the
strategy-6 input that does emit an intent. -/
theorem intelligence_entry_gates_witness :
    ∃ m, (some ⟨80, TradeDir.CALL, some 60, some 0, TradeSignal.WAIT,
        some 0, 0, 0⟩ : Option ScreenerMetrics) = some m ∧
      intelThreshold true false m ≤ |m.confidence| :=
  intelligence_entry_gates.1 true false
    (some ⟨80, .CALL, some 60, some 0, .WAIT, some 0, 0, 0⟩)
    ⟨false, 0, 0, 0, 0, 0, none, none, none, 0, [], [], [], none⟩
    .buy (by decide)

end DDEE
